/-
  Verification of the game-state logic of the tic-tac-toe-arena frontend
  (src/tic_tac_toe_frontend/src/App.js and SnakeLadderGame.js).

  The two game engines are shallowly embedded: JavaScript component state
  becomes a Lean structure, each event handler becomes a pure function on
  that structure, and the dice value (produced by Math.random in the
  source) is passed in as an explicit parameter.
-/
import Mathlib

namespace TicTacToeArena

/-! ## Snake & Ladder: the portal (snakes & ladders) table

`BOARD_PORTALS` in SnakeLadderGame.js is the object
`{2:23, 6:45, 20:59, 52:72, 57:96, 71:92, 43:17, 50:5, 56:8, 73:15, 84:58, 87:49, 98:40}`.
A JavaScript lookup `BOARD_PORTALS[pos]` yields the mapped value or
`undefined`; we embed it as an `Option Nat`-valued lookup. -/

/-- The `BOARD_PORTALS` object of SnakeLadderGame.js: ladder and snake
sources mapped to their destinations, `none` for an unmapped cell. -/
def portalLookup : Nat → Option Nat
  | 2 => some 23
  | 6 => some 45
  | 20 => some 59
  | 52 => some 72
  | 57 => some 96
  | 71 => some 92
  | 43 => some 17
  | 50 => some 5
  | 56 => some 8
  | 73 => some 15
  | 84 => some 58
  | 87 => some 49
  | 98 => some 40
  | _ => none

/-- One iteration of the body of the `do`-loop in `resolvePortals`:
`pos = BOARD_PORTALS[pos] || pos`. -/
def portalStep (p : Nat) : Nat :=
  (portalLookup p).getD p

/-- Every destination in the portal table is itself portal-free: the table
has no chained portals.  This is what makes the source's unguarded
`do`-while loop terminate. -/
theorem portal_target_free (p t : Nat) (h : portalLookup p = some t) :
    portalLookup t = none := by
  unfold portalLookup at h
  split at h <;> first
  | (injection h with h; subst h; rfl)
  | exact Option.noConfusion h

/-- Every destination in the portal table lies in [1, 100]. -/
theorem portal_target_bounds (p t : Nat) (h : portalLookup p = some t) :
    1 ≤ t ∧ t ≤ 100 := by
  unfold portalLookup at h
  split at h <;> first
  | (injection h with h; subst h; decide)
  | exact Option.noConfusion h

theorem portalStep_idem (p : Nat) : portalStep (portalStep p) = portalStep p := by
  unfold portalStep
  rcases h : portalLookup p with _ | t
  · simp [h]
  · simp [h, portal_target_free p t h]

/-- `resolvePortals` of SnakeLadderGame.js:
`do { prev = pos; pos = BOARD_PORTALS[pos] || pos } while (prev !== pos); return pos;`.
The loop repeats `portalStep` until it reaches a fixed point; it terminates
because no portal destination is itself a portal source
(`portal_target_free`), so at most one non-trivial step occurs. -/
def resolvePortals (pos : Nat) : Nat :=
  let next := portalStep pos
  if next = pos then pos else resolvePortals next
termination_by (if portalStep pos = pos then 0 else 1)
decreasing_by
  simp only [portalStep_idem, if_pos]
  simp_all

/-- For this table the loop collapses to a single step. -/
theorem resolvePortals_eq_step (p : Nat) : resolvePortals p = portalStep p := by
  rw [resolvePortals]
  by_cases h : portalStep p = p
  · simp [h]
  · simp only [h, if_neg, ite_false]
    rw [resolvePortals]
    simp [portalStep_idem p]

/-! ## The portal loop over an arbitrary table

To reason about termination of the `do`-while loop in `resolvePortals` we
also embed the loop body over an arbitrary table, with explicit fuel:
`portalLoopWith table fuel pos` returns `some p` when the loop, started at
`pos`, reaches its fixed point `p` within `fuel` iterations, and `none`
when after `fuel` iterations it is still running.  The source loop has no
iteration cap and no error reporting, so its behaviour is exactly: the
result `p` such that `portalLoopWith table fuel pos = some p` for some
fuel, and divergence when no fuel suffices. -/

/-- The loop of `resolvePortals` over an arbitrary portal table, with
fuel counting loop iterations. -/
def portalLoopWith (table : Nat → Option Nat) : Nat → Nat → Option Nat
  | 0, _ => none
  | fuel + 1, pos =>
    let next := (table pos).getD pos
    if next = pos then some pos else portalLoopWith table fuel next

/-- A cyclic two-entry portal table (not the one in the source): cell 1
maps to 2 and cell 2 maps back to 1. -/
def cyclicTable : Nat → Option Nat
  | 1 => some 2
  | 2 => some 1
  | _ => none

/-! ## Snake & Ladder: state and event handlers -/

/-- The component state of `SnakeLadderGame` (the fields of
`initialState` in SnakeLadderGame.js).  JavaScript's `positions` array of
length 2 is a pair, `turn` (0 or 1) is `Fin 2`, `dice: null` is
`Option Nat`, and `winner: null | 0 | 1` is `Option (Fin 2)`. -/
structure SLState where
  positions : Nat × Nat
  turn : Fin 2
  rolling : Bool
  dice : Option Nat
  status : String
  winner : Option (Fin 2)
deriving DecidableEq, Repr

/-- `initialState` of SnakeLadderGame.js. -/
def initialState : SLState :=
  { positions := (1, 1), turn := 0, rolling := false, dice := none,
    status := "", winner := none }

/-- Read `positions[i]` of the two-element positions array. -/
def getPos (ps : Nat × Nat) (i : Fin 2) : Nat :=
  if i = 0 then ps.1 else ps.2

/-- Write `positions[i]` of the two-element positions array. -/
def setPos (ps : Nat × Nat) (i : Fin 2) (v : Nat) : Nat × Nat :=
  if i = 0 then (v, ps.2) else (ps.1, v)

/-- JavaScript truthiness of the `winner` field (`null | 0 | 1`):
`null` and `0` are falsy, `1` is truthy.  This is how the guard
`if (state.rolling || state.winner) return;` in `handleRollDice` reads
`winner`. -/
def winnerTruthy : Option (Fin 2) → Bool
  | none => false
  | some w => w.val != 0

/-- The first state update of `handleRollDice`:
`setState((s) => ({ ...s, rolling: true, dice: null }))`. -/
def rollStart (s : SLState) : SLState :=
  { s with rolling := true, dice := none }

/-- The `setState((prev) => ...)` body of `handleRollDice` that resolves
the roll once the dice value is drawn: move the current player (discarding
an overshoot past 100), apply `resolvePortals`, and detect a win on
cell 100.  The dice value is a parameter; the source draws it as
`1 + Math.floor(Math.random() * 6)`. -/
def rollResolve (dice : Nat) (prev : SLState) : SLState :=
  let i := prev.turn
  let cur := getPos prev.positions i
  let moved := if cur + dice ≤ 100 then cur + dice else cur
  let newPos := resolvePortals moved
  let win : Option (Fin 2) := if newPos = 100 then some i else none
  let statusMsg : String :=
    if newPos = 100 then "Player " ++ toString (i.val + 1) ++ " wins!" else ""
  { prev with
    positions := setPos prev.positions i newPos,
    rolling := false,
    dice := some dice,
    status := match win with | some _ => statusMsg | none => "",
    winner := win }

/-- The delayed turn advance of `handleRollDice`:
`setState((s) => s.winner !== null ? s : { ...s, turn: s.turn === 0 ? 1 : 0 })`. -/
def turnAdvance (s : SLState) : SLState :=
  match s.winner with
  | some _ => s
  | none => { s with turn := if s.turn = 0 then 1 else 0 }

/-- `handleRollDice` of SnakeLadderGame.js as one atomic transition: the
guard `if (state.rolling || state.winner) return;` followed by the three
scheduled state updates (start rolling, resolve the roll with the drawn
dice value, advance the turn). -/
def handleRollDice (dice : Nat) (s : SLState) : SLState :=
  if s.rolling || winnerTruthy s.winner then s
  else turnAdvance (rollResolve dice (rollStart s))

/-- `newGame` of SnakeLadderGame.js: reset to `initialState`. -/
def newGame (_s : SLState) : SLState := initialState

/-- States reachable from `initialState` by the game's own operations:
reset (`newGame`) and a roll (`handleRollDice`) with any dice value the
source generator can produce (`1 + Math.floor(Math.random() * 6)` lies in
[1, 6]). -/
inductive Reachable : SLState → Prop
  | init : Reachable initialState
  | reset (s : SLState) : Reachable s → Reachable (newGame s)
  | roll (s : SLState) (d : Nat) : Reachable s → 1 ≤ d → d ≤ 6 →
      Reachable (handleRollDice d s)

/-! ## Tic-Tac-Toe: board, `calculateWinner`, `handleClick`

From App.js.  A board cell holds `null | "X" | "O"`, embedded as
`Option Mark`; the board is indexed by `Fin 9` (`r*3+c`). -/

/-- A player's symbol, `"X"` or `"O"` in App.js. -/
inductive Mark
  | X
  | O
deriving DecidableEq, Repr

/-- The string the source uses for a mark. -/
def markString : Mark → String
  | Mark.X => "X"
  | Mark.O => "O"

/-- A board cell: `null`, `"X"` or `"O"`. -/
abbrev Cell := Option Mark

/-- The 9-cell board array of App.js. -/
abbrev TBoard := Fin 9 → Cell

/-- An index triple of one of the 8 lines checked by `calculateWinner`. -/
abbrev Line := Fin 9 × Fin 9 × Fin 9

/-- The `lines` list of `calculateWinner`: rows, then columns, then
diagonals, in the source's order. -/
def ticLines : List Line :=
  [(0, 1, 2), (3, 4, 5), (6, 7, 8),
   (0, 3, 6), (1, 4, 7), (2, 5, 8),
   (0, 4, 8), (2, 4, 6)]

/-- The per-line check of `calculateWinner`:
`b[a] && b[a] === b[b2] && b[a] === b[c]`, returning the shared mark
when the line is uniformly filled. -/
def lineWinner (b : TBoard) (l : Line) : Option Mark :=
  match b l.1 with
  | none => none
  | some m => if b l.2.1 = some m ∧ b l.2.2 = some m then some m else none

/-- The `for (let line of lines)` loop of `calculateWinner`: the first
line whose three cells share a non-empty mark, with that mark. -/
def firstWin (b : TBoard) : List Line → Option (Mark × Line)
  | [] => none
  | l :: rest =>
    match lineWinner b l with
    | some m => some (m, l)
    | none => firstWin b rest

/-- `b.every(Boolean)`: all 9 cells are filled. -/
def boardFull (b : TBoard) : Bool :=
  decide (∀ i : Fin 9, (b i).isSome)

/-- The result of `calculateWinner` in App.js: `{winner: mark, line}`,
`{winner: "draw", line: null}`, or `null` (game still in progress). -/
inductive Outcome
  | win (m : Mark) (l : Line)
  | draw
  | inProgress
deriving DecidableEq, Repr

/-- `calculateWinner` of App.js: scan the 8 fixed lines in order and
return the first uniformly-marked one; otherwise `draw` when the board is
full, else still in progress (`null` in the source). -/
def calculateWinner (b : TBoard) : Outcome :=
  match firstWin b ticLines with
  | some (m, l) => Outcome.win m l
  | none => if boardFull b then Outcome.draw else Outcome.inProgress

/-- The Tic-Tac-Toe component state read and written by `handleClick` in
App.js: the `board`, `xIsNext`, `status` (empty while the game is in
progress, `"X wins!"`, `"O wins!"` or `"Draw!"` once terminal) and
`animWinLine` hooks. -/
structure TTTState where
  board : TBoard
  xIsNext : Bool
  status : String
  animWinLine : Option Line

/-- `handleClick(idx)` of App.js as one pure transition:
`if (board[idx] || status) return;` then place the mark, recompute the
winner and update `status` / `animWinLine` / `xIsNext` accordingly. -/
def handleClick (idx : Fin 9) (s : TTTState) : TTTState :=
  if (s.board idx).isSome || s.status != "" then s
  else
    let mark : Mark := if s.xIsNext then Mark.X else Mark.O
    let newBoard : TBoard := Function.update s.board idx (some mark)
    match calculateWinner newBoard with
    | Outcome.draw =>
        { s with board := newBoard, status := "Draw!" }
    | Outcome.win m line =>
        { s with board := newBoard,
                 status := markString m ++ " wins!",
                 animWinLine := some line }
    | Outcome.inProgress =>
        { s with board := newBoard, xIsNext := !s.xIsNext }

/-- A line is uniformly filled with one mark (the spec's "three equal
non-empty marks"). -/
def isUniform (b : TBoard) (l : Line) : Prop :=
  ∃ m : Mark, b l.1 = some m ∧ b l.2.1 = some m ∧ b l.2.2 = some m

/-! ## Helper lemmas -/

theorem resolvePortals_fix (p : Nat) :
    resolvePortals (resolvePortals p) = resolvePortals p := by
  simp [resolvePortals_eq_step, portalStep_idem]

theorem resolvePortals_bounds (p : Nat) (h1 : 1 ≤ p) (h2 : p ≤ 100) :
    1 ≤ resolvePortals p ∧ resolvePortals p ≤ 100 := by
  rw [resolvePortals_eq_step]
  unfold portalStep
  rcases h : portalLookup p with _ | t
  · simpa using ⟨h1, h2⟩
  · simpa using portal_target_bounds p t h

theorem getPos_setPos_eq (ps : Nat × Nat) (i : Fin 2) (v : Nat) :
    getPos (setPos ps i v) i = v := by
  fin_cases i <;> simp [getPos, setPos]

theorem getPos_setPos_ne (ps : Nat × Nat) (i j : Fin 2) (v : Nat) (h : j ≠ i) :
    getPos (setPos ps i v) j = getPos ps j := by
  fin_cases i <;> fin_cases j <;> simp_all [getPos, setPos]

theorem rollStart_positions (s : SLState) : (rollStart s).positions = s.positions := rfl

theorem rollStart_turn (s : SLState) : (rollStart s).turn = s.turn := rfl

theorem rollResolve_positions (d : Nat) (s : SLState) :
    (rollResolve d s).positions =
      setPos s.positions s.turn
        (resolvePortals
          (if getPos s.positions s.turn + d ≤ 100
           then getPos s.positions s.turn + d
           else getPos s.positions s.turn)) := rfl

theorem rollResolve_turn (d : Nat) (s : SLState) : (rollResolve d s).turn = s.turn := rfl

theorem rollResolve_winner (d : Nat) (s : SLState) :
    (rollResolve d s).winner =
      (if resolvePortals
            (if getPos s.positions s.turn + d ≤ 100
             then getPos s.positions s.turn + d
             else getPos s.positions s.turn) = 100
       then some s.turn else none) := rfl

theorem rollResolve_dice (d : Nat) (s : SLState) : (rollResolve d s).dice = some d := rfl

theorem turnAdvance_positions (s : SLState) : (turnAdvance s).positions = s.positions := by
  unfold turnAdvance
  rcases h : s.winner with _ | w <;> simp [h]

theorem turnAdvance_winner (s : SLState) : (turnAdvance s).winner = s.winner := by
  unfold turnAdvance
  rcases h : s.winner with _ | w <;> simp [h]

theorem turnAdvance_dice (s : SLState) : (turnAdvance s).dice = s.dice := by
  unfold turnAdvance
  rcases h : s.winner with _ | w <;> simp [h]

theorem turnAdvance_turn (s : SLState) :
    (turnAdvance s).turn =
      (match s.winner with
       | some _ => s.turn
       | none => if s.turn = 0 then 1 else 0) := by
  unfold turnAdvance
  rcases h : s.winner with _ | w <;> simp [h]

/-! ## The claims -/

/-- C6: `resolvePortals` is idempotent, and for the given table
`resolvePortals 43 = 17` (snake) and `resolvePortals 2 = 23` (ladder). -/
theorem resolvePortals_idempotent :
    (∀ p : Nat, resolvePortals (resolvePortals p) = resolvePortals p) ∧
    resolvePortals 43 = 17 ∧ resolvePortals 2 = 23 := by
  refine ⟨resolvePortals_fix, ?_, ?_⟩ <;> (rw [resolvePortals_eq_step]; rfl)

/-- C7 (amended): the `resolvePortals` loop terminates for every input
position — with the source's fixed table it reaches its fixed point within
two iterations — but not because of any iteration cap: the source has
none. -/
theorem resolvePortals_loop_terminates (pos : Nat) :
    portalLoopWith portalLookup 2 pos = some (resolvePortals pos) := by
  rw [resolvePortals_eq_step]
  show (if portalStep pos = pos then some pos
        else portalLoopWith portalLookup 1 (portalStep pos)) = some (portalStep pos)
  by_cases h : portalStep pos = pos
  · rw [if_pos h, h]
  · rw [if_neg h]
    show (if portalStep (portalStep pos) = portalStep pos then some (portalStep pos)
          else portalLoopWith portalLookup 0 (portalStep (portalStep pos)))
        = some (portalStep pos)
    rw [if_pos (portalStep_idem pos)]

/-- C7 counterexample: the loop of `resolvePortals`, run on a cyclic
portal table from position 1, is still running after 17 iterations — more
than the claimed cap of 16 — and produces no configuration error: the
source loop has no cap and would spin forever on a cyclic table. -/
theorem portalLoop_cyclic_uncapped :
    portalLoopWith cyclicTable 17 1 = none ∧
    portalLoopWith portalLookup 2 98 = some 40 := by
  exact ⟨by decide, by decide⟩

/-- C10: a resolved roll writes only the rolling player's slot of
`positions`: the other player's position is unchanged, both by the inner
resolve step and by the whole `handleRollDice` transition. -/
theorem rollResolve_frame (s : SLState) (d : Nat) (j : Fin 2) (h : j ≠ s.turn) :
    getPos (rollResolve d s).positions j = getPos s.positions j ∧
    getPos (handleRollDice d s).positions j = getPos s.positions j := by
  constructor
  · rw [rollResolve_positions]
    exact getPos_setPos_ne s.positions s.turn j _ h
  · unfold handleRollDice
    by_cases hg : (s.rolling || winnerTruthy s.winner) = true
    · rw [if_pos hg]
    · rw [if_neg hg, turnAdvance_positions, rollResolve_positions,
          rollStart_turn, rollStart_positions]
      exact getPos_setPos_ne s.positions s.turn j _ h

/-- A Snake & Ladder state with player 1 (index 0) resting on the snake
head 98 — not reachable in play, but allowed by the claim's
quantification over all positions in [1, 100]. -/
def stateAt98 : SLState :=
  { positions := (98, 1), turn := 0, rolling := true, dice := none,
    status := "", winner := none }

/-- C4 counterexample: at position 98 (a snake source) a roll of 6
overshoots (98 + 6 = 104 > 100), yet the resolved position is 40, not 98:
the source applies `resolvePortals` even to a discarded move. -/
theorem overshoot_not_unchanged_at_98 :
    getPos stateAt98.positions stateAt98.turn = 98 ∧ 100 < 98 + 6 ∧
    getPos (rollResolve 6 stateAt98).positions stateAt98.turn = 40 := by
  refine ⟨rfl, by decide, ?_⟩
  rw [rollResolve_positions, getPos_setPos_eq]
  rw [resolvePortals_eq_step]
  rfl

/-- C4 (amended): an overshooting roll leaves the current player's
position unchanged provided that position is not a portal source (a fixed
point of `resolvePortals`) — true of every position a player can actually
rest on; a portal-source position such as 98 would still be remapped. -/
theorem overshoot_discarded (s : SLState) (d : Nat)
    (hover : 100 < getPos s.positions s.turn + d)
    (hfix : resolvePortals (getPos s.positions s.turn) = getPos s.positions s.turn) :
    getPos (rollResolve d s).positions s.turn = getPos s.positions s.turn := by
  rw [rollResolve_positions, getPos_setPos_eq, if_neg (by omega), hfix]

/-- A state with player 1 (index 0) resting on 95. -/
def stateAt95 : SLState :=
  { positions := (95, 1), turn := 0, rolling := true, dice := none,
    status := "", winner := none }

/-- C4 witness: from position 95 a roll of 6 overshoots and the position
stays 95. -/
theorem overshoot_discarded_witness :
    100 < getPos stateAt95.positions stateAt95.turn + 6 ∧
    resolvePortals (getPos stateAt95.positions stateAt95.turn)
      = getPos stateAt95.positions stateAt95.turn ∧
    getPos (rollResolve 6 stateAt95).positions stateAt95.turn
      = getPos stateAt95.positions stateAt95.turn := by
  have hfix : resolvePortals (getPos stateAt95.positions stateAt95.turn)
      = getPos stateAt95.positions stateAt95.turn := by
    rw [resolvePortals_eq_step]; rfl
  exact ⟨by decide, hfix, overshoot_discarded stateAt95 6 (by decide) hfix⟩

/-- C5: for an accepted roll, if the resolved position of the rolling
player is exactly 100 the engine records that player as the winner and the
turn does not advance; if it is below 100 no winner is recorded and the
turn flips to the other player.  Cell 100 has no portal mapping, so a
winning position is never remapped. -/
theorem winning_roll_terminal (s : SLState) (d : Nat)
    (hguard : (s.rolling || winnerTruthy s.winner) = false) :
    (getPos (handleRollDice d s).positions s.turn = 100 →
        (handleRollDice d s).winner = some s.turn ∧
        (handleRollDice d s).turn = s.turn) ∧
    (getPos (handleRollDice d s).positions s.turn < 100 →
        (handleRollDice d s).winner = none ∧
        (handleRollDice d s).turn = (if s.turn = 0 then 1 else 0)) ∧
    portalLookup 100 = none ∧ resolvePortals 100 = 100 := by
  have hroll : handleRollDice d s = turnAdvance (rollResolve d (rollStart s)) := by
    unfold handleRollDice
    rw [hguard]
    rfl
  have hpos : getPos (handleRollDice d s).positions s.turn =
      resolvePortals
        (if getPos s.positions s.turn + d ≤ 100
         then getPos s.positions s.turn + d
         else getPos s.positions s.turn) := by
    rw [hroll, turnAdvance_positions, rollResolve_positions, rollStart_turn,
        rollStart_positions, getPos_setPos_eq]
  have hwin : (handleRollDice d s).winner =
      (if resolvePortals
            (if getPos s.positions s.turn + d ≤ 100
             then getPos s.positions s.turn + d
             else getPos s.positions s.turn) = 100
       then some s.turn else none) := by
    rw [hroll, turnAdvance_winner, rollResolve_winner, rollStart_turn, rollStart_positions]
  refine ⟨?_, ?_, rfl, by rw [resolvePortals_eq_step]; rfl⟩
  · intro h100
    rw [hpos] at h100
    constructor
    · rw [hwin, if_pos h100]
    · rw [hroll, turnAdvance_turn]
      rw [rollResolve_winner, rollStart_turn, rollStart_positions, if_pos h100,
          rollResolve_turn, rollStart_turn]
  · intro hlt
    rw [hpos] at hlt
    have hne : ¬ (resolvePortals
        (if getPos s.positions s.turn + d ≤ 100
         then getPos s.positions s.turn + d
         else getPos s.positions s.turn) = 100) := by omega
    constructor
    · rw [hwin, if_neg hne]
    · rw [hroll, turnAdvance_turn]
      rw [rollResolve_winner, rollStart_turn, rollStart_positions, if_neg hne,
          rollResolve_turn, rollStart_turn]

/-- A state with player 1 (index 0) on 97 and the guard clear. -/
def stateAt97 : SLState :=
  { positions := (97, 1), turn := 0, rolling := false, dice := none,
    status := "", winner := none }

/-- C5 witness: from 97 a roll of 3 lands exactly on 100, records player
index 0 as winner and leaves the turn on player 0. -/
theorem winning_roll_terminal_witness :
    (stateAt97.rolling || winnerTruthy stateAt97.winner) = false ∧
    getPos (handleRollDice 3 stateAt97).positions stateAt97.turn = 100 ∧
    (handleRollDice 3 stateAt97).winner = some stateAt97.turn ∧
    (handleRollDice 3 stateAt97).turn = stateAt97.turn := by
  have hg : (stateAt97.rolling || winnerTruthy stateAt97.winner) = false := by decide
  have h100 : getPos (handleRollDice 3 stateAt97).positions stateAt97.turn = 100 := by
    unfold handleRollDice
    rw [hg]
    show getPos (turnAdvance (rollResolve 3 (rollStart stateAt97))).positions
        stateAt97.turn = 100
    rw [turnAdvance_positions, rollResolve_positions, rollStart_turn, rollStart_positions,
        getPos_setPos_eq, resolvePortals_eq_step]
    rfl
  have h := (winning_roll_terminal stateAt97 3 hg).1 h100
  exact ⟨hg, h100, h.1, h.2⟩

/-- C10 witness: with player index 0 rolling from `stateAt97`, player
index 1's position is untouched. -/
theorem rollResolve_frame_witness :
    (1 : Fin 2) ≠ stateAt97.turn ∧
    getPos (rollResolve 3 stateAt97).positions 1 = getPos stateAt97.positions 1 ∧
    getPos (handleRollDice 3 stateAt97).positions 1 = getPos stateAt97.positions 1 := by
  have h : (1 : Fin 2) ≠ stateAt97.turn := by decide
  have hf := rollResolve_frame stateAt97 3 1 h
  exact ⟨h, hf.1, hf.2⟩

/-- The state right after player 1 (index 0) has won: piece on 100,
winner 0, turn still 0 (the turn does not advance past a win), not
rolling. -/
def wonByPlayer0 : SLState :=
  { positions := (100, 4), turn := 0, rolling := false, dice := some 3,
    status := "Player 1 wins!", winner := some 0 }

/-- The mirror state where player 2 (index 1) has won. -/
def wonByPlayer1 : SLState :=
  { positions := (4, 100), turn := 1, rolling := false, dice := some 3,
    status := "Player 2 wins!", winner := some 1 }

/-- C1: the engine guard `if (state.rolling || state.winner) return;`
reads `winner` by JavaScript truthiness, and the number 0 is falsy: after
player index 0 wins, a new roll is NOT ignored — it runs and overwrites
the `dice` field — while after player index 1 wins it is ignored.  A roll
while `rolling` is true is always ignored. -/
theorem roll_after_player0_win_not_ignored :
    (handleRollDice 5 wonByPlayer0).dice = some 5 ∧
    wonByPlayer0.dice = some 3 ∧
    handleRollDice 5 wonByPlayer0 ≠ wonByPlayer0 ∧
    handleRollDice 5 wonByPlayer1 = wonByPlayer1 ∧
    (∀ d : Nat, ∀ s : SLState, s.rolling = true → handleRollDice d s = s) := by
  have hg : (wonByPlayer0.rolling || winnerTruthy wonByPlayer0.winner) = false := by decide
  have hdice : (handleRollDice 5 wonByPlayer0).dice = some 5 := by
    unfold handleRollDice
    rw [hg]
    show (turnAdvance (rollResolve 5 (rollStart wonByPlayer0))).dice = some 5
    rw [turnAdvance_dice, rollResolve_dice]
  refine ⟨?_, rfl, ?_, ?_, ?_⟩
  · exact hdice
  · intro h
    rw [h] at hdice
    exact Option.noConfusion hdice (fun h5 => by omega)
  · unfold handleRollDice
    rw [show (wonByPlayer1.rolling || winnerTruthy wonByPlayer1.winner) = true by decide]
    rfl
  · intro d s hs
    unfold handleRollDice
    rw [hs]
    rfl

/-- C9: in every state reachable from `initialState` by resets and rolls,
both players' positions lie in [1, 100] and rest on portal-free cells:
each resting position is a fixed point of `resolvePortals`. -/
theorem reachable_positions_resolved (s : SLState) (hs : Reachable s) :
    ∀ i : Fin 2,
      1 ≤ getPos s.positions i ∧ getPos s.positions i ≤ 100 ∧
      resolvePortals (getPos s.positions i) = getPos s.positions i := by
  induction hs with
  | init =>
    intro i
    fin_cases i <;>
      exact ⟨by decide, by decide, by rw [resolvePortals_eq_step]; rfl⟩
  | reset s hsr ih =>
    intro i
    unfold newGame
    fin_cases i <;>
      exact ⟨by decide, by decide, by rw [resolvePortals_eq_step]; rfl⟩
  | roll s d hsr h1 h6 ih =>
    intro i
    unfold handleRollDice
    by_cases hg : (s.rolling || winnerTruthy s.winner) = true
    · rw [if_pos hg]
      exact ih i
    · rw [if_neg hg, turnAdvance_positions, rollResolve_positions, rollStart_turn,
          rollStart_positions]
      by_cases hi : i = s.turn
      · rw [hi, getPos_setPos_eq]
        obtain ⟨hc1, hc2, -⟩ := ih s.turn
        have hmoved :
            1 ≤ (if getPos s.positions s.turn + d ≤ 100
                 then getPos s.positions s.turn + d
                 else getPos s.positions s.turn) ∧
            (if getPos s.positions s.turn + d ≤ 100
             then getPos s.positions s.turn + d
             else getPos s.positions s.turn) ≤ 100 := by
          split_ifs with hle
          · omega
          · omega
        have hb := resolvePortals_bounds _ hmoved.1 hmoved.2
        exact ⟨hb.1, hb.2, resolvePortals_fix _⟩
      · rw [getPos_setPos_ne s.positions s.turn i _ hi]
        exact ih i

/-- C9 witness: `initialState` and the state after one accepted roll of 1
both satisfy the invariant. -/
theorem reachable_positions_resolved_witness :
    Reachable (handleRollDice 1 initialState) ∧
    (1 ≤ getPos (handleRollDice 1 initialState).positions 0 ∧
     getPos (handleRollDice 1 initialState).positions 0 ≤ 100 ∧
     resolvePortals (getPos (handleRollDice 1 initialState).positions 0)
       = getPos (handleRollDice 1 initialState).positions 0) := by
  have hr : Reachable (handleRollDice 1 initialState) :=
    Reachable.roll initialState 1 Reachable.init (by decide) (by decide)
  exact ⟨hr, reachable_positions_resolved _ hr 0⟩

/-- C3: `handleClick` is a no-op — the entire state is returned
unchanged — whenever the game is already terminal (the stored `status` is
non-empty, i.e. a win or draw has been recorded) or the clicked cell is
occupied. -/
theorem handleClick_noop (s : TTTState) (idx : Fin 9)
    (h : s.status ≠ "" ∨ (s.board idx).isSome = true) :
    handleClick idx s = s := by
  unfold handleClick
  rcases h with h | h
  · have : (s.status != "") = true := by simpa using h
    rw [this, Bool.or_true, if_pos rfl]
  · rw [h, Bool.true_or, if_pos rfl]

/-- A Tic-Tac-Toe state with only cell 0 occupied (by X) and O to move. -/
def tttOneMove : TTTState :=
  { board := Function.update (fun _ => none) 0 (some Mark.X),
    xIsNext := false, status := "", animWinLine := none }

/-- C3 witness: clicking the occupied cell 0 changes nothing. -/
theorem handleClick_noop_witness :
    (tttOneMove.status ≠ "" ∨ (tttOneMove.board 0).isSome = true) ∧
    handleClick 0 tttOneMove = tttOneMove := by
  have h : (tttOneMove.board 0).isSome = true := by
    simp [tttOneMove]
  exact ⟨Or.inr h, handleClick_noop tttOneMove 0 (Or.inr h)⟩

/-- C8: after an accepted move, if the resulting outcome is still in
progress the mark to move flips; if the move ended the game (win or draw)
it does not flip. -/
theorem handleClick_turn_alternation (s : TTTState) (idx : Fin 9)
    (hb : s.board idx = none) (hst : s.status = "") :
    (calculateWinner (handleClick idx s).board = Outcome.inProgress →
        (handleClick idx s).xIsNext = !s.xIsNext) ∧
    (calculateWinner (handleClick idx s).board ≠ Outcome.inProgress →
        (handleClick idx s).xIsNext = s.xIsNext) := by
  have hg : ((s.board idx).isSome || s.status != "") = false := by
    rw [hb, hst]
    rfl
  unfold handleClick
  rw [hg]
  simp only [Bool.false_eq_true, if_false]
  cases hw : calculateWinner
      (Function.update s.board idx
        (some (if s.xIsNext then Mark.X else Mark.O))) with
  | win m l => simp [hw]
  | draw => simp [hw]
  | inProgress => simp [hw]

/-- The empty Tic-Tac-Toe board with X to move. -/
def tttEmpty : TTTState :=
  { board := fun _ => none, xIsNext := true, status := "", animWinLine := none }

/-- C8 witness: the first move on an empty board leaves the game in
progress and flips the mark from X to O. -/
theorem handleClick_turn_alternation_witness :
    tttEmpty.board 0 = none ∧ tttEmpty.status = "" ∧
    (calculateWinner (handleClick 0 tttEmpty).board = Outcome.inProgress →
        (handleClick 0 tttEmpty).xIsNext = !tttEmpty.xIsNext) ∧
    calculateWinner (handleClick 0 tttEmpty).board = Outcome.inProgress := by
  refine ⟨rfl, rfl, (handleClick_turn_alternation tttEmpty 0 rfl rfl).1, ?_⟩
  decide

theorem lineWinner_eq_some (b : TBoard) (l : Line) (m : Mark) :
    lineWinner b l = some m ↔
      b l.1 = some m ∧ b l.2.1 = some m ∧ b l.2.2 = some m := by
  unfold lineWinner
  rcases h : b l.1 with _ | m'
  · simp [h]
  · show (if b l.2.1 = some m' ∧ b l.2.2 = some m' then some m' else none) = some m ↔
        some m' = some m ∧ b l.2.1 = some m ∧ b l.2.2 = some m
    split_ifs with hc
    · constructor
      · intro hm
        injection hm with hm
        subst hm
        exact ⟨rfl, hc.1, hc.2⟩
      · rintro ⟨hm, -, -⟩
        injection hm with hm
        rw [hm]
    · constructor
      · intro hm
        cases hm
      · rintro ⟨hm, h2, h3⟩
        injection hm with hm
        subst hm
        exact absurd ⟨h2, h3⟩ hc

theorem lineWinner_uniform (b : TBoard) (l : Line) :
    (∃ m, lineWinner b l = some m) ↔ isUniform b l := by
  unfold isUniform
  constructor
  · rintro ⟨m, hm⟩
    exact ⟨m, (lineWinner_eq_some b l m).1 hm⟩
  · rintro ⟨m, hm⟩
    exact ⟨m, (lineWinner_eq_some b l m).2 hm⟩

theorem firstWin_eq_none (b : TBoard) (L : List Line) :
    firstWin b L = none ↔ ∀ l ∈ L, lineWinner b l = none := by
  induction L with
  | nil => simp [firstWin]
  | cons l rest ih =>
    rcases h : lineWinner b l with _ | m <;> simp [firstWin, h, ih]

theorem firstWin_eq_some (b : TBoard) (L : List Line) (m : Mark) (l : Line)
    (h : firstWin b L = some (m, l)) :
    ∃ L₁ L₂, L = L₁ ++ l :: L₂ ∧ (∀ l' ∈ L₁, lineWinner b l' = none) ∧
      lineWinner b l = some m := by
  induction L with
  | nil => exact Option.noConfusion h
  | cons l₀ rest ih =>
    rw [firstWin] at h
    rcases h₀ : lineWinner b l₀ with _ | m₀ <;> rw [h₀] at h
    · rcases ih h with ⟨L₁, L₂, hL, hnone, hwin⟩
      refine ⟨l₀ :: L₁, L₂, by rw [hL]; rfl, ?_, hwin⟩
      intro l' hl'
      rcases List.mem_cons.mp hl' with rfl | hl'
      · exact h₀
      · exact hnone l' hl'
    · injection h with h
      rw [Prod.mk.injEq] at h
      obtain ⟨rfl, rfl⟩ := h
      exact ⟨[], rest, rfl, by simp, h₀⟩

theorem boardFull_iff (b : TBoard) :
    boardFull b = true ↔ ∀ i : Fin 9, (b i).isSome := by
  unfold boardFull
  exact decide_eq_true_iff

/-- C2: `calculateWinner` returns a win exactly when one of the 8 fixed
lines holds three equal non-empty marks; the reported line bears the
reported mark and is the first matching line in the fixed order of
`ticLines` (rows, columns, diagonals); `draw` exactly when no line is
uniform and all 9 cells are filled; otherwise the game is in progress. -/
theorem calculateWinner_spec (b : TBoard) :
    (∀ m l, calculateWinner b = Outcome.win m l →
        (b l.1 = some m ∧ b l.2.1 = some m ∧ b l.2.2 = some m) ∧
        ∃ L₁ L₂, ticLines = L₁ ++ l :: L₂ ∧ ∀ l' ∈ L₁, ¬ isUniform b l') ∧
    ((∃ m l, calculateWinner b = Outcome.win m l) ↔
        ∃ l ∈ ticLines, isUniform b l) ∧
    (calculateWinner b = Outcome.draw ↔
        (∀ l ∈ ticLines, ¬ isUniform b l) ∧ ∀ i : Fin 9, (b i).isSome) ∧
    (calculateWinner b = Outcome.inProgress ↔
        (∀ l ∈ ticLines, ¬ isUniform b l) ∧ ¬ ∀ i : Fin 9, (b i).isSome) := by
  rcases hf : firstWin b ticLines with _ | ⟨m₀, l₀⟩
  · have hall : ∀ l ∈ ticLines, lineWinner b l = none :=
      (firstWin_eq_none b ticLines).1 hf
    have hallU : ∀ l ∈ ticLines, ¬ isUniform b l := by
      intro l hl hu
      rcases (lineWinner_uniform b l).2 hu with ⟨m, hm⟩
      rw [hall l hl] at hm
      exact Option.noConfusion hm
    unfold calculateWinner
    rw [hf]
    by_cases hfull : boardFull b = true
    · rw [if_pos hfull]
      refine ⟨?_, ?_, ?_, ?_⟩
      · intro m l hwl
        exact Outcome.noConfusion hwl
      · constructor
        · rintro ⟨m, l, hwl⟩
          exact Outcome.noConfusion hwl
        · rintro ⟨l, hl, hu⟩
          exact absurd hu (hallU l hl)
      · exact iff_of_true rfl ⟨hallU, (boardFull_iff b).1 hfull⟩
      · refine iff_of_false (fun hwl => Outcome.noConfusion hwl) ?_
        rintro ⟨-, hnot⟩
        exact hnot ((boardFull_iff b).1 hfull)
    · rw [if_neg hfull]
      have hnotfull : ¬ ∀ i : Fin 9, (b i).isSome := fun hs =>
        hfull ((boardFull_iff b).2 hs)
      refine ⟨?_, ?_, ?_, ?_⟩
      · intro m l hwl
        exact Outcome.noConfusion hwl
      · constructor
        · rintro ⟨m, l, hwl⟩
          exact Outcome.noConfusion hwl
        · rintro ⟨l, hl, hu⟩
          exact absurd hu (hallU l hl)
      · exact iff_of_false (fun hwl => Outcome.noConfusion hwl)
          (fun hc => hnotfull hc.2)
      · exact iff_of_true rfl ⟨hallU, hnotfull⟩
  · rcases firstWin_eq_some b ticLines m₀ l₀ hf with ⟨L₁, L₂, hL, hnone, hwin⟩
    have hmem : l₀ ∈ ticLines := by
      rw [hL]
      exact List.mem_append_right L₁ (List.mem_cons_self l₀ L₂)
    have hu₀ : isUniform b l₀ := (lineWinner_uniform b l₀).1 ⟨m₀, hwin⟩
    unfold calculateWinner
    rw [hf]
    refine ⟨?_, ?_, ?_, ?_⟩
    · intro m l hwl
      injection hwl with hm hl
      subst hm
      subst hl
      refine ⟨(lineWinner_eq_some b l₀ m₀).1 hwin, L₁, L₂, hL, ?_⟩
      intro l' hl' hu'
      rcases (lineWinner_uniform b l').2 hu' with ⟨m', hm'⟩
      rw [hnone l' hl'] at hm'
      exact Option.noConfusion hm'
    · exact iff_of_true ⟨m₀, l₀, rfl⟩ ⟨l₀, hmem, hu₀⟩
    · refine iff_of_false (fun hwl => Outcome.noConfusion hwl) ?_
      rintro ⟨hnu, -⟩
      exact hnu l₀ hmem hu₀
    · refine iff_of_false (fun hwl => Outcome.noConfusion hwl) ?_
      rintro ⟨hnu, -⟩
      exact hnu l₀ hmem hu₀

/-- A board with X on the top row and O elsewhere marked: X wins via
line (0,1,2). -/
def boardTopRowX : TBoard := fun i =>
  if i.val ≤ 2 then some Mark.X
  else if i.val ≤ 4 then some Mark.O
  else none

/-- C2 witness: on `boardTopRowX`, `calculateWinner` reports the X win on
the first line, and the iff direction of the specification yields a
uniform line. -/
theorem calculateWinner_spec_witness :
    calculateWinner boardTopRowX = Outcome.win Mark.X (0, 1, 2) ∧
    ∃ l ∈ ticLines, isUniform boardTopRowX l := by
  have hwin : calculateWinner boardTopRowX = Outcome.win Mark.X (0, 1, 2) := by
    decide
  exact ⟨hwin, (calculateWinner_spec boardTopRowX).2.1.1 ⟨Mark.X, (0, 1, 2), hwin⟩⟩

end TicTacToeArena
